import Mathlib

/-!
Verification development for the deriva-workbench annotation-editing model.

The definitions below are a shallow embedding of the editor/model logic of
the repository (src/deriva/workbench/editors/pseudo_column.py,
source_definitions.py, visible_sources.py, common.py and browser.py).
Python dictionaries with a fixed set of optional keys are embedded as
structures of Option-valued fields (a key that is absent is none); ordered
dictionaries with dynamic keys are embedded as association lists that keep
insertion order; in-place mutation of a dictionary is embedded as explicit
state passing.  The table graph itself comes from the external library
deriva.core.ermrest_model and is embedded from its interface as the spec
describes it (tables owning columns, foreign keys with a two-part
constraint name, a referencing table and a referenced table).
-/

set_option autoImplicit false

namespace DerivaWorkbench

/-- Two-part constraint name: owning-schema name and local constraint name.
Mirrors the value produced by common.constraint_name (a two-element list). -/
structure ConstraintName where
  schema : String
  name : String
deriving DecidableEq

/-- A table of the external table graph: its name and the names of its
columns.  Embeds the read-only interface of ermrest_model.Table used by the
editors. -/
structure Table where
  name : String
  columns : List String
deriving DecidableEq

/-- A foreign key of the external table graph: its two-part constraint
name, its referencing table (fkey.table) and its referenced primary-key
table (fkey.pk_table). -/
structure ForeignKey where
  cname : ConstraintName
  table : Table
  pk_table : Table
deriving DecidableEq

/-- The table graph (ermrest_model.Model): the collection of all foreign
keys.  Tables are carried inside the foreign keys and inside frames. -/
structure Model where
  fkeys : List ForeignKey
deriving DecidableEq

/-- Modelled from the spec: deriva.core.ermrest_model Model.fkey looks a
foreign key up by its two-part constraint name over the whole model; an
absent constraint raises KeyError (here: none).  The library itself is
outside src/. -/
def Model.fkey (m : Model) (cn : ConstraintName) : Option ForeignKey :=
  m.fkeys.find? (fun fk => decide (fk.cname = cn))

/-- The outbound foreign keys of a table (ermrest_model Table.foreign_keys):
those foreign keys whose referencing table is this table. -/
def Table.foreign_keys (t : Table) (m : Model) : List ForeignKey :=
  m.fkeys.filter (fun fk => decide (fk.table = t))

/-- The inbound references of a table (ermrest_model Table.referenced_by):
those foreign keys whose referenced table is this table. -/
def Table.referenced_by (t : Table) (m : Model) : List ForeignKey :=
  m.fkeys.filter (fun fk => decide (fk.pk_table = t))

/-- One component of a stored source path: a column name (a JSON string),
an outbound traversal or an inbound traversal (JSON objects holding a
two-element constraint name). -/
inductive SourceComponent where
  | col (name : String)
  | outbound (cname : ConstraintName)
  | inbound (cname : ConstraintName)
deriving DecidableEq

/-- The raw value stored under the "source" key of an entry before
canonicalization: either a bare JSON string or a JSON list of components. -/
inductive SourceVal where
  | str (s : String)
  | list (items : List SourceComponent)
deriving DecidableEq

/-- Python len of a raw source value (len of a string or of a list). -/
def svLen : SourceVal → Nat
  | .str s => s.length
  | .list l => l.length

/-- Canonicalization of the raw source (pseudo_column.py lines 344-349):
a bare string s becomes the one-element list containing s; a two-element
list whose items are both strings becomes a one-element list holding an
outbound traversal; any other list is kept as it is. -/
def canonicalizeSource : SourceVal → List SourceComponent
  | .str s => [.col s]
  | .list [.col a, .col b] => [.outbound ⟨a, b⟩]
  | .list items => items

/-- A context frame of the resolver: the root table or a table reached by a
traversal, or a column of the table it was looked up on. -/
inductive Frame where
  | tbl (t : Table)
  | col (owner : Table) (name : String)
deriving DecidableEq

/-- Outcome of resolving one path component against the current frame
(the body of the loop in SourceEntryWidget.__init__):
next f on success; keyErr for a KeyError (missing column name on the
current table, or Model.fkey missing the constraint), which the loop
catches; attrErr for the AttributeError raised when a column name is
looked up while the current frame is a column (a column has no columns
attribute), which the loop does not catch. -/
inductive StepResult where
  | next (f : Frame)
  | keyErr
  | attrErr
deriving DecidableEq

/-- One resolution step (pseudo_column.py lines 355-368).  A string
component is looked up among the columns of the current frame, which must
be a table.  A traversal component is looked up with Model.fkey over the
whole model (self.table.schema.model), not against the current frame;
outbound moves to fk.pk_table, inbound moves to fk.table. -/
def resolveStep (m : Model) (cur : Frame) : SourceComponent → StepResult
  | .col name =>
    match cur with
    | .col _ _ => .attrErr
    | .tbl t => if name ∈ t.columns then .next (.col t name) else .keyErr
  | .outbound cn =>
    match m.fkey cn with
    | some fk => .next (.tbl fk.pk_table)
    | none => .keyErr
  | .inbound cn =>
    match m.fkey cn with
    | some fk => .next (.tbl fk.table)
    | none => .keyErr

/-- Outcome of the whole resolution loop: ok keeps the canonical source and
the full frame stack; truncated is the caught-KeyError path, where the
entry source is reassigned to the validated prefix (line 374) and a
diagnostic is logged (line 373); crash is an uncaught exception escaping
the loop. -/
inductive LoadOutcome where
  | ok (source : List SourceComponent) (context : List Frame)
  | truncated (source : List SourceComponent) (context : List Frame)
  | crash
deriving DecidableEq

/-- The resolution loop of SourceEntryWidget.__init__ (lines 352-374):
cur is the current frame (self.context last element), acc the frame stack
built so far, validated the components resolved so far. -/
def resolveLoop (m : Model) : Frame → List Frame → List SourceComponent → List SourceComponent → LoadOutcome
  | _, acc, validated, [] => .ok validated acc
  | cur, acc, validated, c :: rest =>
    match resolveStep m cur c with
    | .next f => resolveLoop m f (acc ++ [f]) (validated ++ [c]) rest
    | .keyErr => .truncated validated acc
    | .attrErr => .crash

/-- Resolve a raw source against a root table: canonicalize, then run the
loop from the frame stack holding just the root table. -/
def loadSource (m : Model) (t : Table) (sv : SourceVal) : LoadOutcome :=
  resolveLoop m (.tbl t) [.tbl t] [] (canonicalizeSource sv)

/-- Pure success-only walk over a component list: the frame reached after
resolving every component, none if any step is not a success.  Used to
state that a prefix of a path is valid. -/
def walk (m : Model) (cur : Frame) : List SourceComponent → Option Frame
  | [] => some cur
  | c :: rest =>
    match resolveStep m cur c with
    | .next f => walk m f rest
    | _ => none

/-- Whether a frame stack continues past a column frame: true when some
column frame is followed by at least one further frame. -/
def extendsPastColumn : List Frame → Bool
  | [] => false
  | .col _ _ :: _ :: _ => true
  | _ :: rest => extendsPastColumn rest

/-- An available next-hop choice offered by the source entry widget:
a column of the current table, an outbound foreign key or an inbound
reference (each hop carries the graph object, as userData does). -/
inductive NextHop where
  | col (owner : Table) (name : String)
  | outboundFk (fk : ForeignKey)
  | inboundFk (fk : ForeignKey)
deriving DecidableEq

/-- The menu of next hops computed by _updateAvailableSourcesFromTable
(pseudo_column.py lines 400-419): every column of the table, then every
outbound foreign key, then every inbound reference. -/
def availableSources (m : Model) (t : Table) : List NextHop :=
  t.columns.map (NextHop.col t)
    ++ (t.foreign_keys m).map NextHop.outboundFk
    ++ (t.referenced_by m).map NextHop.inboundFk

/-- The mutable state of SourceEntryWidget relevant to push and pop: the
stored source path (entry source), the context frame stack, the available
next-hop combo box contents, and the enabled flags of the combo box and of
the push and pop buttons. -/
structure SourceEntryState where
  source : List SourceComponent
  context : List Frame
  avail : List NextHop
  availEnabled : Bool
  pushEnabled : Bool
  popEnabled : Bool
deriving DecidableEq

/-- SourceEntryWidget.on_push (lines 421-459) once a next hop has been
selected: pushing a column appends its name to the source and the column
to the context and clears and disables the next-hop menu and the push
button; pushing a traversal appends the traversal (with the two-part
constraint name) and the reached table and recomputes the menu from that
table.  The pop button is enabled in every case. -/
def on_push (m : Model) (st : SourceEntryState) : NextHop → SourceEntryState
  | .col owner name =>
    { source := st.source ++ [.col name]
      context := st.context ++ [.col owner name]
      avail := []
      availEnabled := false
      pushEnabled := false
      popEnabled := true }
  | .outboundFk fk =>
    { source := st.source ++ [.outbound fk.cname]
      context := st.context ++ [.tbl fk.pk_table]
      avail := availableSources m fk.pk_table
      availEnabled := st.availEnabled
      pushEnabled := st.pushEnabled
      popEnabled := true }
  | .inboundFk fk =>
    { source := st.source ++ [.inbound fk.cname]
      context := st.context ++ [.tbl fk.table]
      avail := availableSources m fk.table
      availEnabled := st.availEnabled
      pushEnabled := st.pushEnabled
      popEnabled := true }

/-- The push click handler including its guard: when the combo box has no
current data (none) the handler returns without any change. -/
def on_push_click (m : Model) (st : SourceEntryState) : Option NextHop → SourceEntryState
  | none => st
  | some c => on_push m st c

/-- SourceEntryWidget.on_pop (lines 461-477).  When the source is nonempty
the last source component and the last context frame are dropped and the
next-hop menu is recomputed from the new last frame, which the helper
asserts to be a table (none models that assertion failing).  In every
completed run the combo box and push button are re-enabled and the pop
button is enabled exactly when the remaining source is nonempty. -/
def on_pop (m : Model) (st : SourceEntryState) : Option SourceEntryState :=
  if st.source = [] then
    some { st with availEnabled := true, pushEnabled := true, popEnabled := false }
  else
    let source := st.source.dropLast
    let context := st.context.dropLast
    match context.getLast? with
    | some (.tbl t) =>
      some { source := source
             context := context
             avail := availableSources m t
             availEnabled := true
             pushEnabled := true
             popEnabled := decide (source ≠ []) }
    | _ => none

/-- The display sub-object of a pseudo-column entry: a dictionary with
five optional keys. -/
structure Display where
  markdown_pattern : Option String := none
  template_engine : Option String := none
  wait_for : Option (List String) := none
  show_foreign_key_link : Option Bool := none
  array_ux_mode : Option String := none
deriving DecidableEq

/-- Python truthiness of the display dictionary: it is falsy exactly when
it holds no key. -/
def Display.isEmpty (d : Display) : Bool :=
  d.markdown_pattern.isNone && d.template_engine.isNone && d.wait_for.isNone
    && d.show_foreign_key_link.isNone && d.array_ux_mode.isNone

/-- A pseudo-column entry: a dictionary with optional keys.  The raw
source value is kept as stored (bare string or list). -/
structure Entry where
  source : Option SourceVal := none
  sourcekey : Option String := none
  entity : Option Bool := none
  self_link : Option Bool := none
  aggregate : Option String := none
  markdown_name : Option String := none
  comment : Option String := none
  comment_display : Option String := none
  display : Option Display := none
deriving DecidableEq

/-- PseudoColumnEditWidget._set_display_value (pseudo_column.py lines
245-264): read the display dictionary (or an empty one), set the key when
cond holds and erase it otherwise, then store the dictionary back under
"display" when it is nonempty and delete the "display" key when it became
empty.  The key and value of the Python call are passed as the field
setter and field eraser. -/
def set_display_value (e : Entry) (cond : Bool) (setK eraseK : Display → Display) : Entry :=
  let d0 := e.display.getD {}
  let d1 := if cond then setK d0 else eraseK d0
  if d1.isEmpty then { e with display := none } else { e with display := some d1 }

/-- One invocation of a display-property slot handler with the value read
from its widget (pseudo_column.py lines 266-319). -/
inductive DisplayMutation where
  | markdownPattern (text : String)
  | templateEngine (choice : String)
  | waitFor (selected : List String)
  | showForeignKeyLink (checked : Bool)
  | arrayUxMode (choice : String)

/-- Apply one display-property handler.  The condition of each call
mirrors the Python handler: truthiness of the text, membership of the
template engine in its two valid choices, nonemptiness of the wait_for
list, the checkbox state for the negated foreign-key-link flag, and a
nonempty array-ux-mode choice. -/
def applyDisplayMutation (e : Entry) : DisplayMutation → Entry
  | .markdownPattern text =>
    set_display_value e (decide (text ≠ ""))
      (fun d => { d with markdown_pattern := some text })
      (fun d => { d with markdown_pattern := none })
  | .templateEngine choice =>
    set_display_value e (decide (choice = "handlebars" ∨ choice = "mustache"))
      (fun d => { d with template_engine := some choice })
      (fun d => { d with template_engine := none })
  | .waitFor selected =>
    set_display_value e (decide (selected ≠ []))
      (fun d => { d with wait_for := some selected })
      (fun d => { d with wait_for := none })
  | .showForeignKeyLink checked =>
    set_display_value e checked
      (fun d => { d with show_foreign_key_link := some (!checked) })
      (fun d => { d with show_foreign_key_link := none })
  | .arrayUxMode choice =>
    set_display_value e (decide (choice ≠ ""))
      (fun d => { d with array_ux_mode := some choice })
      (fun d => { d with array_ux_mode := none })

/-- The sequence of handler invocations that removes every display
sub-property: each carries the default/empty widget value, so each call
has a false condition and erases its key. -/
def removeAllDisplay : List DisplayMutation :=
  [.markdownPattern "", .templateEngine "", .waitFor [], .showForeignKeyLink false, .arrayUxMode ""]

/-- The display dictionary of an entry, an empty one when the key is
absent (entry.get of the Python code). -/
def displayOrEmpty (e : Entry) : Display := e.display.getD {}

/-- PseudoColumnEditWidget.on_sourcekey_indexchanged (lines 164-175): a
nonempty selected source key is stored under "sourcekey" (and the source
entry widget is disabled); an empty selection deletes the "sourcekey" key.
The stored "source" key is never touched here. -/
def on_sourcekey_indexchanged (e : Entry) (sourcekey : String) : Entry :=
  if sourcekey ≠ "" then { e with sourcekey := some sourcekey }
  else { e with sourcekey := none }

/-- VisibleSourceDialog.accept, pseudo-column branch (visible_sources.py
lines 410-417) after the widget entry has been merged: when a "source"
key is present and its value has Python length zero the key is deleted;
nothing else is removed, in particular the "sourcekey" key is kept. -/
def visibleSourceDialogAccept (e : Entry) : Entry :=
  match e.source with
  | some sv => if svLen sv = 0 then { e with source := none } else e
  | none => e

/-- PseudoColumnEditWidget.__init__ entry initialization (pseudo_column.py
lines 35-42) for a dictionary entry: when the "source" key is absent an
empty-list placeholder is inserted into the shared entry as a side effect
of opening the editor. -/
def pseudoColumnInit (e : Entry) : Entry :=
  if e.source = none then { e with source := some (.list []) } else e

/-- The whole source-loading pass of PseudoColumnEditWidget over the
stored source: insert the placeholder if absent, canonicalize (lines
344-349, already assigned into the entry), then run the resolution loop;
on a caught KeyError the source is reassigned to the validated prefix
(line 374); on an uncaught error the canonical assignment is what
remains. -/
def pseudoColumnWidgetLoad (m : Model) (t : Table) (e : Entry) : Entry :=
  let e1 := pseudoColumnInit e
  let sv := e1.source.getD (.list [])
  match loadSource m t sv with
  | .ok src _ => { e1 with source := some (.list src) }
  | .truncated src _ => { e1 with source := some (.list src) }
  | .crash => { e1 with source := some (.list (canonicalizeSource sv)) }

/-- The per-table source-definitions registry: the "sources" mapping from
source keys to entries, in insertion order. -/
abbrev SrcMap := List (String × Entry)

/-- The keys of the registry. -/
def srcKeys (s : SrcMap) : List String := s.map (fun kv => kv.1)

/-- Dictionary lookup in the registry (first match). -/
def srcLookup (s : SrcMap) (k : String) : Option Entry :=
  (s.find? (fun kv => decide (kv.1 = k))).map (fun kv => kv.2)

/-- The reserved keys passed to SourceDefinitionDialog by
_SourcesWidget.on_add_click (source_definitions.py line 171): the column
names of the table, the reserved search-box key, and the existing source
keys. -/
def reservedKeys (cols : List String) (s : SrcMap) : List String :=
  cols ++ ["search-box"] ++ srcKeys s

/-- Outcome of SourceDefinitionDialog.accept followed by the add in
on_add_click: accepted commits, the three rejections correspond to the
three validation message boxes (key required, duplicate key, source
required), each leaving the registry untouched. -/
inductive AddOutcome where
  | accepted
  | keyRequired
  | duplicateKey
  | sourceRequired
deriving DecidableEq

/-- Python truthiness of entry.get of the "source" key: an absent key, an
empty string and an empty list are falsy. -/
def sourceTruthy : Option SourceVal → Bool
  | none => false
  | some (.str s) => decide (s ≠ "")
  | some (.list l) => decide (l ≠ [])

/-- The add operation of the registry (SourceDefinitionDialog.accept,
lines 270-306, composed with _SourcesWidget.on_add_click, lines 167-177):
an empty key is rejected first, then a key colliding with the reserved
keys, then an entry whose source is falsy; otherwise the entry, with its
transient "sourcekey" key deleted, is stored under the key at the end of
the registry. -/
def addSourceKey (cols : List String) (s : SrcMap) (k : String) (e : Entry) : AddOutcome × SrcMap :=
  if k = "" then (.keyRequired, s)
  else if k ∈ reservedKeys cols s then (.duplicateKey, s)
  else if sourceTruthy e.source then (.accepted, s ++ [(k, { e with sourcekey := none })])
  else (.sourceRequired, s)

/-- The candidate key tried by the duplication loop: orig + "_copy_" + i. -/
def dupCandidate (orig : String) (i : Nat) : String :=
  orig ++ "_copy_" ++ toString i

/-- The while loop of _SourcesWidget.on_duplicate_click (lines 186-190):
starting from counter i, return the first candidate key not among the
existing keys.  The fuel argument bounds the iteration count of the
embedding; the loop body is exactly the Python one. -/
def findFreshFrom (keys : List String) (orig : String) : Nat → Nat → String
  | 0, i => dupCandidate orig i
  | fuel + 1, i =>
    if dupCandidate orig i ∈ keys then findFreshFrom keys orig fuel (i + 1)
    else dupCandidate orig i

/-- The key finally chosen by the duplication loop: the original key when
it is (against expectation) absent, otherwise the first fresh candidate
orig + "_copy_" + i for i = 1, 2, ... -/
def duplicateKeyName (keys : List String) (orig : String) : String :=
  if orig ∈ keys then findFreshFrom keys orig (keys.length + 1) 1 else orig

/-- _SourcesWidget.on_duplicate_click (lines 179-194): look the selected
key up, deep-copy its entry (a value copy in this embedding) and insert
the copy at the end of the registry under the disambiguated key.  A
missing key (no selected row) is a no-op. -/
def on_duplicate (s : SrcMap) (orig : String) : SrcMap :=
  match srcLookup s orig with
  | none => s
  | some e => s ++ [(duplicateKeyName (srcKeys s) orig, e)]

/-- A visible-sources context entry as classified by
VisibleSourcesContextEditor._entry2row: a bare column name, a two-element
constraint name, or a pseudo-column dictionary. -/
inductive VSEntry where
  | column (name : String)
  | constraintRef (cn : ConstraintName)
  | pseudo (e : Entry)
deriving DecidableEq

/-- The body stored under one context name: a bare list of entries, or,
for the reserved "filter" context, an object holding the list under its
"and" key. -/
inductive ContextBody where
  | plain (entries : List VSEntry)
  | filtered (conj : List VSEntry)
deriving DecidableEq

/-- A visible-columns / visible-foreign-keys annotation body: contexts by
name, in insertion order. -/
abbrev VCBody := List (String × ContextBody)

/-- Dictionary assignment body[k] = v: replace in place when the key
exists, append otherwise. -/
def insertOrReplace : VCBody → String → ContextBody → VCBody
  | [], k, v => [(k, v)]
  | (k0, v0) :: rest, k, v =>
    if k0 = k then (k0, v) :: rest else (k0, v0) :: insertOrReplace rest k v

/-- VisibleSourcesEditor._on_creatContext (visible_sources.py lines
46-60): the new context is stored as the wrapper object with an empty
"and" list when the name is "filter", and as a bare empty list
otherwise. -/
def createContext (body : VCBody) (context : String) : VCBody :=
  insertOrReplace body context
    (if context = "filter" then .filtered [] else .plain [])

/-- VisibleSourcesEditor._on_removeContext (lines 62-67): the context key
is deleted from the body. -/
def removeContext (body : VCBody) (context : String) : VCBody :=
  body.filter (fun kv => decide (kv.1 ≠ context))

/-- Append one entry to the contents list of a context body; for the
"filter" shape the nested "and" list is the one appended to. -/
def appendEntryCB (cb : ContextBody) (e : VSEntry) : ContextBody :=
  match cb with
  | .plain l => .plain (l ++ [e])
  | .filtered l => .filtered (l ++ [e])

/-- VisibleSourcesContextEditor.on_add_click (lines 185-196): the accepted
entry is appended to the contents list of the context, which is the very
list aliased inside the annotation body. -/
def appendToContext (body : VCBody) (context : String) (e : VSEntry) : VCBody :=
  body.map (fun kv => if kv.1 = context then (kv.1, appendEntryCB kv.2 e) else kv)

/-- The source-definitions annotation body as touched by
_SourcesWidget.__init__: the optional "sources" mapping. -/
structure SourceDefBody where
  sources : Option SrcMap := none
deriving DecidableEq

/-- _SourcesWidget.__init__ (source_definitions.py line 126): the widget
assigns body["sources"] = body.get("sources", emptydict), inserting an
empty mapping into the stored body when the key was absent. -/
def sourcesWidgetInit (b : SourceDefBody) : SourceDefBody :=
  { b with sources := some (b.sources.getD []) }

/-- A sample table for concrete instantiations (the scenario of the spec:
table Document with columns id and title). -/
def sampleDoc : Table := ⟨"Document", ["id", "title"]⟩

/-- A sample referenced table (Author). -/
def sampleAuthor : Table := ⟨"Author", ["name"]⟩

/-- A sample foreign key public:fk1 from Document to Author. -/
def sampleFk : ForeignKey := ⟨⟨"public", "fk1"⟩, sampleDoc, sampleAuthor⟩

/-- A sample model holding just the one foreign key. -/
def sampleModel : Model := ⟨[sampleFk]⟩

/-- A sample source entry widget state rooted at the Document table. -/
def sampleState : SourceEntryState :=
  ⟨[], [.tbl sampleDoc], availableSources sampleModel sampleDoc, true, true, false⟩

/-- Appending one element and then dropping the last element of a list is
the identity; the shape of both the source and the context updates. -/
theorem dropLast_append_single {α : Type} (l : List α) (x : α) : (l ++ [x]).dropLast = l := by
  simp

/-- C1: for every state whose terminal context frame is a table and every
next-hop choice enumerable from that frame, performing the push operation
and then the pop operation returns both the stored source path and the
context frame stack to exactly their state before the push. -/
theorem c1_push_pop_symmetric (m : Model) (st : SourceEntryState) (t : Table) (c : NextHop)
    (hlast : st.context.getLast? = some (.tbl t)) (hmem : c ∈ availableSources m t) :
    ∃ st2, on_pop m (on_push m st c) = some st2
      ∧ st2.source = st.source ∧ st2.context = st.context := by
  cases c with
  | col owner name =>
    refine ⟨⟨st.source, st.context, availableSources m t, true, true, decide (st.source ≠ [])⟩,
      ?_, rfl, rfl⟩
    simp [on_push, on_pop, dropLast_append_single, hlast]
  | outboundFk fk =>
    refine ⟨⟨st.source, st.context, availableSources m t, true, true, decide (st.source ≠ [])⟩,
      ?_, rfl, rfl⟩
    simp [on_push, on_pop, dropLast_append_single, hlast]
  | inboundFk fk =>
    refine ⟨⟨st.source, st.context, availableSources m t, true, true, decide (st.source ≠ [])⟩,
      ?_, rfl, rfl⟩
    simp [on_push, on_pop, dropLast_append_single, hlast]

/-- Witness for C1 at a concrete model and state: pushing the id column
hop onto the empty path rooted at Document and popping restores the state
parts. -/
theorem c1_witness :
    ∃ st2, on_pop sampleModel (on_push sampleModel sampleState (.col sampleDoc "id")) = some st2
      ∧ st2.source = sampleState.source ∧ st2.context = sampleState.context :=
  c1_push_pop_symmetric sampleModel sampleState sampleDoc (.col sampleDoc "id")
    (by decide) (by decide)

/-- Every truncated run of the resolution loop identifies a first failing
component: the validated source is the concatenation of the incoming
validated components with the longest successfully walked take of the
remaining components, and the component at the failing index resolves to a
caught KeyError. -/
theorem resolveLoop_truncated_spec (m : Model) :
    ∀ (xs : List SourceComponent) (cur : Frame) (acc : List Frame)
      (val src : List SourceComponent) (ctx : List Frame),
      resolveLoop m cur acc val xs = .truncated src ctx →
      ∃ i, ∃ h : i < xs.length, src = val ++ xs.take i ∧
        ∃ fin, walk m cur (xs.take i) = some fin ∧
          resolveStep m fin (xs.get ⟨i, h⟩) = .keyErr := by
  intro xs
  induction xs with
  | nil =>
    intro cur acc val src ctx h
    simp [resolveLoop] at h
  | cons c rest ih =>
    intro cur acc val src ctx h
    rw [resolveLoop] at h
    cases hstep : resolveStep m cur c with
    | next f =>
      rw [hstep] at h
      obtain ⟨i, hi, hsrc, fin, hwalk, hfail⟩ := ih f (acc ++ [f]) (val ++ [c]) src ctx h
      refine ⟨i + 1, by simpa using Nat.succ_lt_succ hi, ?_, fin, ?_, ?_⟩
      · simpa [List.take_succ_cons] using hsrc
      · simp [walk, hstep, hwalk]
      · simpa using hfail
    | keyErr =>
      rw [hstep] at h
      injection h with h1 h2
      subst h1
      refine ⟨0, by simp, by simp, cur, by simp [walk], by simpa using hstep⟩
    | attrErr =>
      rw [hstep] at h
      exact absurd h (by simp)

/-- C2: when resolving a stored source against a root table ends in a
caught resolution failure (a missing column name or a missing constraint,
both KeyError), the stored source is set to the longest valid take of the
canonical components before the first failing component, the trailing
components are discarded, the failure is the diagnosed recoverable outcome
(the truncated constructor corresponds to the logged diagnostic of line
373), and the run is not an uncaught abort. -/
theorem c2_truncation (m : Model) (t : Table) (sv : SourceVal)
    (src : List SourceComponent) (ctx : List Frame)
    (h : loadSource m t sv = .truncated src ctx) :
    (∃ i, ∃ hi : i < (canonicalizeSource sv).length,
      src = (canonicalizeSource sv).take i ∧
      ∃ fin, walk m (.tbl t) src = some fin ∧
        resolveStep m fin ((canonicalizeSource sv).get ⟨i, hi⟩) = .keyErr)
    ∧ loadSource m t sv ≠ .crash := by
  constructor
  · obtain ⟨i, hi, hsrc, fin, hwalk, hfail⟩ :=
      resolveLoop_truncated_spec m (canonicalizeSource sv) (.tbl t) [.tbl t] [] src ctx h
    simp only [List.nil_append] at hsrc
    exact ⟨i, hi, hsrc, fin, by rw [hsrc]; exact hwalk, hfail⟩
  · rw [h]
    simp

/-- Witness for C2: resolving the one-component path holding a column name
absent from the Document table truncates the source to the empty valid
take, with the failing component at index zero. -/
theorem c2_witness :
    (∃ i, ∃ hi : i < (canonicalizeSource (.list [.col "nope"])).length,
      ([] : List SourceComponent) = (canonicalizeSource (.list [.col "nope"])).take i ∧
      ∃ fin, walk sampleModel (.tbl sampleDoc) [] = some fin ∧
        resolveStep sampleModel fin ((canonicalizeSource (.list [.col "nope"])).get ⟨i, hi⟩) = .keyErr)
    ∧ loadSource sampleModel sampleDoc (.list [.col "nope"]) ≠ .crash :=
  c2_truncation sampleModel sampleDoc (.list [.col "nope"]) [] [.tbl sampleDoc] (by decide)

/-- C3: loading a pseudo-column entry canonicalizes its source encoding:
a bare string s becomes the one-element list holding s and a two-element
list of strings becomes a one-element list holding the outbound traversal,
both unconditionally at the canonicalization step; and when the resulting
component resolves (the string names a column of the root table, the pair
names an existing constraint) the stored source after the whole load is
exactly that canonical form. -/
theorem c3_canonical_roundtrip (m : Model) (t : Table) (e : Entry) (s a b : String)
    (fk : ForeignKey) :
    canonicalizeSource (.str s) = [.col s]
    ∧ canonicalizeSource (.list [.col a, .col b]) = [.outbound ⟨a, b⟩]
    ∧ (s ∈ t.columns →
        (pseudoColumnWidgetLoad m t { e with source := some (.str s) }).source
          = some (.list [.col s]))
    ∧ (m.fkey ⟨a, b⟩ = some fk →
        (pseudoColumnWidgetLoad m t { e with source := some (.list [.col a, .col b]) }).source
          = some (.list [.outbound ⟨a, b⟩])) := by
  refine ⟨rfl, rfl, ?_, ?_⟩
  · intro hs
    simp [pseudoColumnWidgetLoad, pseudoColumnInit, loadSource, canonicalizeSource,
      resolveLoop, resolveStep, hs]
  · intro hfk
    simp [pseudoColumnWidgetLoad, pseudoColumnInit, loadSource, canonicalizeSource,
      resolveLoop, resolveStep, hfk]

/-- Witness for C3 at the sample model: the bare string id and the pair
public fk1 load to their canonical encodings. -/
theorem c3_witness :
    (pseudoColumnWidgetLoad sampleModel sampleDoc { source := some (.str "id") }).source
      = some (.list [.col "id"])
    ∧ (pseudoColumnWidgetLoad sampleModel sampleDoc
        { source := some (.list [.col "public", .col "fk1"]) }).source
      = some (.list [.outbound ⟨"public", "fk1"⟩]) :=
  ⟨(c3_canonical_roundtrip sampleModel sampleDoc {} "id" "public" "fk1" sampleFk).2.2.1
      (by decide),
   (c3_canonical_roundtrip sampleModel sampleDoc {} "id" "public" "fk1" sampleFk).2.2.2
      (by decide)⟩

/-- The set-or-delete helper for display keys can only store a nonempty
display dictionary: whenever the result still has a display object, some
key of it is present. -/
theorem set_display_value_minimal (e : Entry) (c : Bool) (sk ek : Display → Display)
    (d : Display) (h : (set_display_value e c sk ek).display = some d) :
    d.isEmpty = false := by
  simp only [set_display_value] at h
  by_cases hemp : (if c then sk (e.display.getD {}) else ek (e.display.getD {})).isEmpty = true
  · rw [if_pos hemp] at h
    simp at h
  · rw [if_neg hemp] at h
    have h2 : some (if c then sk (e.display.getD {}) else ek (e.display.getD {})) = some d := h
    injection h2 with h3
    subst h3
    simpa using hemp

/-- Each display-property handler leaves the entry with either no display
key or a nonempty display dictionary. -/
theorem applyDisplayMutation_minimal (e : Entry) (mu : DisplayMutation) (d : Display)
    (h : (applyDisplayMutation e mu).display = some d) : d.isEmpty = false := by
  cases mu with
  | markdownPattern text => exact set_display_value_minimal e _ _ _ d h
  | templateEngine choice => exact set_display_value_minimal e _ _ _ d h
  | waitFor selected => exact set_display_value_minimal e _ _ _ d h
  | showForeignKeyLink checked => exact set_display_value_minimal e _ _ _ d h
  | arrayUxMode choice => exact set_display_value_minimal e _ _ _ d h

/-- After at least one display-property handler invocation the entry never
holds an empty display dictionary. -/
theorem foldl_displayMutation_minimal :
    ∀ (ms : List DisplayMutation) (e : Entry), ms ≠ [] →
      ∀ d, (ms.foldl applyDisplayMutation e).display = some d → d.isEmpty = false := by
  intro ms
  induction ms with
  | nil => intro e hne; exact absurd rfl hne
  | cons mu rest ih =>
    intro e _ d h
    rw [List.foldl_cons] at h
    cases hr : rest with
    | nil =>
      subst hr
      simp only [List.foldl_nil] at h
      exact applyDisplayMutation_minimal e mu d h
    | cons mu2 tl =>
      refine ih (applyDisplayMutation e mu) ?_ d h
      simp [hr]

/-- Applying the all-defaults handler sequence erases every display
sub-property and with it the display key itself, whatever the entry held
before. -/
theorem removeAllDisplay_clears (e : Entry) :
    (removeAllDisplay.foldl applyDisplayMutation e).display = none := by
  rcases e with ⟨src, sk, ent, sl, ag, mn, cm, cd, disp⟩
  cases disp with
  | none => rfl
  | some d =>
    rcases d with ⟨f1, f2, f3, f4, f5⟩
    cases f1 <;> cases f2 <;> cases f3 <;> cases f4 <;> cases f5 <;> rfl

/-- C4: after any nonempty sequence of display-property mutations the
display key is present in the entry iff at least one of its
sub-properties is present (a stored display dictionary is never empty,
and an absent display key holds no sub-property by construction); and a
sequence that removes every sub-property leaves no display key in the
entry at all. -/
theorem c4_display_minimality :
    (∀ (e : Entry) (ms : List DisplayMutation), ms ≠ [] →
      ∀ d, (ms.foldl applyDisplayMutation e).display = some d → d.isEmpty = false)
    ∧ (∀ e : Entry, (removeAllDisplay.foldl applyDisplayMutation e).display = none) :=
  ⟨fun e ms hne => foldl_displayMutation_minimal ms e hne, removeAllDisplay_clears⟩

/-- Witness for C4: one concrete mutation stores a markdown pattern and
the resulting display dictionary is nonempty. -/
theorem c4_witness :
    (⟨some "x", none, none, none, none⟩ : Display).isEmpty = false :=
  c4_display_minimality.1 {} [.markdownPattern "x"] (List.cons_ne_nil _ _)
    ⟨some "x", none, none, none, none⟩ (by rfl)

/-- Counterexample to C5 as stated: for the key k1, which collides with no
existing source key, no column name and not the reserved search-box key,
the add does not fail with a duplicate-key error but does not succeed
either; it is rejected because the entry has no source.  The claim's
dichotomy (duplicate-key failure exactly on collision, success otherwise)
is therefore false on the code. -/
theorem c5_counterexample :
    (addSourceKey ["title"] [] "k1" {}).1 ≠ .duplicateKey
    ∧ "k1" ∉ reservedKeys ["title"] []
    ∧ (addSourceKey ["title"] [] "k1" {}).1 ≠ .accepted := by
  decide

/-- C5, amended: the add fails with a duplicate-key error, leaving the
registry unchanged, iff k is nonempty and is already a source key, a
column name, or the reserved search-box key; an empty key or, absent any
collision, an entry whose source is empty fail with a different
validation error, also leaving the registry unchanged; otherwise the add
succeeds and stores the entry (with the transient sourcekey removed)
under k. -/
theorem c5_add_source_key (cols : List String) (s : SrcMap) (k : String) (e : Entry) :
    ((addSourceKey cols s k e).1 = .duplicateKey
        ↔ k ≠ "" ∧ (k ∈ srcKeys s ∨ k ∈ cols ∨ k = "search-box"))
    ∧ (k = "" → addSourceKey cols s k e = (.keyRequired, s))
    ∧ (k ≠ "" → k ∉ reservedKeys cols s → sourceTruthy e.source = true →
        addSourceKey cols s k e = (.accepted, s ++ [(k, { e with sourcekey := none })]))
    ∧ (k ≠ "" → k ∉ reservedKeys cols s → sourceTruthy e.source = false →
        addSourceKey cols s k e = (.sourceRequired, s))
    ∧ ((addSourceKey cols s k e).1 ≠ .accepted → (addSourceKey cols s k e).2 = s) := by
  have hres : k ∈ reservedKeys cols s ↔ (k ∈ srcKeys s ∨ k ∈ cols ∨ k = "search-box") := by
    simp [reservedKeys, List.mem_append]
    tauto
  refine ⟨?_, ?_, ?_, ?_, ?_⟩
  · unfold addSourceKey
    split
    · rename_i hk
      subst hk
      simp
    · rename_i hk
      split
      · rename_i hin
        simp [hk, hres.mp hin]
      · rename_i hnin
        constructor
        · intro hcontra
          split at hcontra <;> exact absurd hcontra (by simp)
        · intro ⟨_, hdisj⟩
          exact absurd (hres.mpr hdisj) hnin
  · intro hk
    simp [addSourceKey, hk]
  · intro hk hnin htruthy
    simp [addSourceKey, hk, hnin, htruthy]
  · intro hk hnin hfalsy
    simp [addSourceKey, hk, hnin, hfalsy]
  · intro hnacc
    unfold addSourceKey at hnacc ⊢
    split_ifs at hnacc ⊢ <;> first | rfl | exact absurd rfl hnacc

/-- Witness for C5 (amended): a fresh nonempty key with a truthy source is
accepted and stored at the end of the registry with the transient
sourcekey key removed. -/
theorem c5_witness :
    addSourceKey ["title"] [] "k1" { source := some (.str "id"), sourcekey := some "k1" }
      = (.accepted, [("k1", { source := some (.str "id") })]) :=
  (c5_add_source_key ["title"] [] "k1"
      { source := some (.str "id"), sourcekey := some "k1" }).2.2.1
    (by decide) (by decide) (by decide)

/-- Counterexample to C6 as stated: an entry holding both a sourcekey and
a nonempty source at the moment of commit is persisted by the dialog
accept handler with both keys still present, so it is false that exactly
one representation is persisted and that no committed entry contains both
keys. -/
theorem c6_counterexample :
    (visibleSourceDialogAccept
        { sourcekey := some "k1", source := some (.list [.col "id"]) }).sourcekey = some "k1"
    ∧ (visibleSourceDialogAccept
        { sourcekey := some "k1", source := some (.list [.col "id"]) }).source
        = some (.list [.col "id"]) := by
  decide

/-- C6, amended: on commit the pseudo-column branch deletes the source key
exactly when its value has length zero and never touches the sourcekey
key, so an entry holding a sourcekey together with a nonempty source is
persisted with both representations; selecting a nonempty sourcekey in
the editor stores it without removing the stored source (the source entry
widget is merely disabled). -/
theorem c6_commit_keeps_both (e : Entry) (sv : SourceVal) (k : String) :
    (e.source = some sv → svLen sv = 0 →
      visibleSourceDialogAccept e = { e with source := none })
    ∧ (e.source = some sv → svLen sv ≠ 0 → visibleSourceDialogAccept e = e)
    ∧ (visibleSourceDialogAccept e).sourcekey = e.sourcekey
    ∧ (k ≠ "" → (on_sourcekey_indexchanged e k).sourcekey = some k
        ∧ (on_sourcekey_indexchanged e k).source = e.source) := by
  refine ⟨?_, ?_, ?_, ?_⟩
  · intro hsv hlen
    simp [visibleSourceDialogAccept, hsv, hlen]
  · intro hsv hlen
    simp [visibleSourceDialogAccept, hsv, hlen]
  · unfold visibleSourceDialogAccept
    split
    · split <;> rfl
    · rfl
  · intro hk
    constructor <;> simp [on_sourcekey_indexchanged, hk]

/-- Witness for C6 (amended): committing an entry whose source is the
empty list removes the source key and keeps the sourcekey. -/
theorem c6_witness :
    visibleSourceDialogAccept { source := some (.list []), sourcekey := some "k1" }
      = { source := none, sourcekey := some "k1" } :=
  (c6_commit_keeps_both { source := some (.list []), sourcekey := some "k1" }
    (.list []) "k1").1 rfl rfl

/-- Counterexample to C7 as stated: opening the pseudo-column editor over
an entry lacking a source key mutates the entry by inserting an
empty-list source placeholder, and opening the sources widget over a
source-definitions body lacking a sources key inserts an empty sources
mapping, so merely viewing does mutate the stored structures. -/
theorem c7_counterexample :
    pseudoColumnInit {} ≠ ({} : Entry)
    ∧ (pseudoColumnInit {}).source = some (.list [])
    ∧ sourcesWidgetInit {} ≠ ({} : SourceDefBody)
    ∧ (sourcesWidgetInit {}).sources = some [] := by
  decide

/-- C7, amended: opening the pseudo-column editor over an entry lacking a
source key inserts the placeholder empty-list source into the shared
entry (entries already holding the key are not changed by this
initialization step), and opening the sources widget over a body lacking
a sources key inserts an empty sources mapping (a present mapping is kept
as it is). -/
theorem c7_viewing_inserts_placeholders (e : Entry) (sv : SourceVal)
    (b : SourceDefBody) (s : SrcMap) :
    (e.source = none → pseudoColumnInit e = { e with source := some (.list []) })
    ∧ (e.source = some sv → pseudoColumnInit e = e)
    ∧ (b.sources = none → sourcesWidgetInit b = { b with sources := some [] })
    ∧ (b.sources = some s → sourcesWidgetInit b = b) := by
  refine ⟨?_, ?_, ?_, ?_⟩
  · intro h
    simp [pseudoColumnInit, h]
  · intro h
    simp [pseudoColumnInit, h]
  · intro h
    simp [sourcesWidgetInit, h]
  · intro h
    cases b
    simp at h
    simp [sourcesWidgetInit, h]

/-- Witness for C7 (amended): the empty entry gains the placeholder
source. -/
theorem c7_witness :
    pseudoColumnInit {} = { source := some (.list []) } :=
  (c7_viewing_inserts_placeholders {} (.list []) {} []).1 rfl

/-- C8: starting from an empty visible-columns annotation body, creating a
context adds the key mapped to an empty list, or to the wrapper object
holding an empty nested list when the name is the reserved filter context;
appending an entry adds it to that (possibly nested) list; and removing
the context deletes the key entirely, so a create-then-remove sequence,
with or without an intervening append, restores the empty body with no
residual empty object. -/
theorem c8_context_lifecycle (context : String) (e : VSEntry) :
    createContext [] context
      = [(context, if context = "filter" then ContextBody.filtered [] else ContextBody.plain [])]
    ∧ appendToContext (createContext [] context) context e
      = [(context, if context = "filter" then ContextBody.filtered [e] else ContextBody.plain [e])]
    ∧ removeContext (createContext [] context) context = []
    ∧ removeContext (appendToContext (createContext [] context) context e) context = [] := by
  by_cases h : context = "filter" <;>
    simp [createContext, insertOrReplace, appendToContext, appendEntryCB, removeContext, h]

/-- Counterexample to C9 as stated: resolving the concrete path that names
the id column of the Document table and then the outbound traversal
public fk1 succeeds in full, producing a frame stack that extends past
the column frame, because traversal components are resolved by a
model-wide constraint lookup that never consults the current frame.  The
frame stack therefore can extend past a column frame, contrary to the
claim. -/
theorem c9_counterexample :
    loadSource sampleModel sampleDoc (.list [.col "id", .outbound ⟨"public", "fk1"⟩])
      = .ok [.col "id", .outbound ⟨"public", "fk1"⟩]
          [.tbl sampleDoc, .col sampleDoc "id", .tbl sampleAuthor]
    ∧ extendsPastColumn [.tbl sampleDoc, .col sampleDoc "id", .tbl sampleAuthor] = true := by
  decide

/-- C9, amended: during resolution a string component found while the
current frame is a column aborts with an uncaught error rather than
stopping cleanly, and a traversal component found while the current frame
is a column still resolves (constraint lookup is model-wide) and extends
the frame stack past the column frame; only the interactive push
operation enforces column terminality: after a column has been pushed the
next-hop menu is empty and disabled, the push button is disabled, and a
push click with no selected data changes nothing. -/
theorem c9_column_terminality (m : Model) (o : Table) (n nm : String) (acc : List Frame)
    (val rest : List SourceComponent) (cn : ConstraintName) (fk : ForeignKey)
    (st : SourceEntryState) :
    resolveLoop m (.col o n) acc val (.col nm :: rest) = .crash
    ∧ (m.fkey cn = some fk →
        resolveLoop m (.col o n) acc val (.outbound cn :: rest)
          = resolveLoop m (.tbl fk.pk_table) (acc ++ [Frame.tbl fk.pk_table])
              (val ++ [.outbound cn]) rest)
    ∧ (on_push m st (.col o n)).avail = []
    ∧ (on_push m st (.col o n)).pushEnabled = false
    ∧ (on_push m st (.col o n)).availEnabled = false
    ∧ on_push_click m (on_push m st (.col o n)) none = on_push m st (.col o n) := by
  refine ⟨?_, ?_, rfl, rfl, rfl, rfl⟩
  · rw [resolveLoop]
    rfl
  · intro h
    rw [resolveLoop]
    simp [resolveStep, h]

/-- Witness for C9 (amended): at the sample model a traversal component
after a column frame continues the loop into the referenced table. -/
theorem c9_witness :
    resolveLoop sampleModel (.col sampleDoc "id") [] [] [.outbound ⟨"public", "fk1"⟩]
      = resolveLoop sampleModel (.tbl sampleAuthor) [Frame.tbl sampleAuthor]
          [.outbound ⟨"public", "fk1"⟩] [] :=
  ((c9_column_terminality sampleModel sampleDoc "id" "x" [] [] []
      ⟨"public", "fk1"⟩ sampleFk sampleState).2.1 (by decide))

/-- The duplication loop started at counter i with enough fuel returns the
first fresh candidate: if every candidate strictly before the target is
taken and the target candidate is fresh, the loop stops exactly at the
target. -/
theorem findFreshFrom_eq (keys : List String) (orig : String) :
    ∀ (fuel i target : Nat), i ≤ target → target - i < fuel →
      (∀ j, i ≤ j → j < target → dupCandidate orig j ∈ keys) →
      dupCandidate orig target ∉ keys →
      findFreshFrom keys orig fuel i = dupCandidate orig target := by
  intro fuel
  induction fuel with
  | zero =>
    intro i target _ hlt
    omega
  | succ f ih =>
    intro i target hit hlt hall hfresh
    by_cases hi : i = target
    · subst hi
      rw [findFreshFrom, if_neg hfresh]
    · have h1 : i < target := lt_of_le_of_ne hit hi
      have hmem : dupCandidate orig i ∈ keys := hall i le_rfl h1
      rw [findFreshFrom, if_pos hmem]
      exact ih (i + 1) target h1 (by omega) (fun j hj1 hj2 => hall j (by omega) hj2) hfresh

/-- A successful registry lookup means the key is among the registry
keys. -/
theorem srcLookup_some_mem (s : SrcMap) (k : String) (e : Entry)
    (h : srcLookup s k = some e) : k ∈ srcKeys s := by
  induction s with
  | nil => simp [srcLookup] at h
  | cons kv tl ih =>
    rw [srcLookup, List.find?] at h
    by_cases hk : kv.1 = k
    · simp [srcKeys, hk]
    · rw [decide_eq_false hk] at h
      simp only [srcKeys, List.map_cons, List.mem_cons]
      exact Or.inr (ih h)

/-- Lookup of a key present in the left part of an appended registry is
unaffected by the appended tail. -/
theorem srcLookup_append_left (s rest : SrcMap) (k : String) (hmem : k ∈ srcKeys s) :
    srcLookup (s ++ rest) k = srcLookup s k := by
  induction s with
  | nil => simp [srcKeys] at hmem
  | cons kv tl ih =>
    rw [List.cons_append, srcLookup, List.find?, srcLookup, List.find?]
    by_cases hk : kv.1 = k
    · rw [decide_eq_true (by exact hk)]
    · rw [decide_eq_false hk]
      have hmem2 : k = kv.1 ∨ k ∈ srcKeys tl := by
        have hcons : srcKeys (kv :: tl) = kv.1 :: srcKeys tl := rfl
        rw [hcons, List.mem_cons] at hmem
        exact hmem
      have htl : k ∈ srcKeys tl := by
        rcases hmem2 with h | h
        · exact absurd h.symm hk
        · exact h
      exact ih htl

/-- C10: duplicating the source definition stored under key orig inserts a
copy of its entry at the end of the registry under the fresh key
orig + underscore copy underscore i, for i the smallest positive integer
whose candidate is not already a source key; no existing definition is
removed, overwritten or modified (every existing key still looks up to
its previous entry), and the inserted entry is a value copy of the
original (the Python deepcopy; in this pure embedding structure sharing
is not observable and the copy is the equal value).  The bound hypothesis
on i reflects that the least fresh index never exceeds the key count plus
one, which keeps the embedded loop within its fuel. -/
theorem c10_duplicate_fresh_copy (s : SrcMap) (orig : String) (e : Entry) (i : Nat)
    (hlook : srcLookup s orig = some e)
    (hpos : 1 ≤ i)
    (hbound : i ≤ (srcKeys s).length + 1)
    (hall : ∀ j, 1 ≤ j → j < i → dupCandidate orig j ∈ srcKeys s)
    (hfresh : dupCandidate orig i ∉ srcKeys s) :
    on_duplicate s orig = s ++ [(dupCandidate orig i, e)]
    ∧ (∀ k, k ∈ srcKeys s → srcLookup (on_duplicate s orig) k = srcLookup s k)
    ∧ srcKeys (on_duplicate s orig) = srcKeys s ++ [dupCandidate orig i] := by
  have hmem : orig ∈ srcKeys s := srcLookup_some_mem s orig e hlook
  have hname : duplicateKeyName (srcKeys s) orig = dupCandidate orig i := by
    rw [duplicateKeyName, if_pos hmem]
    refine findFreshFrom_eq (srcKeys s) orig ((srcKeys s).length + 1) 1 i hpos (by omega) ?_ hfresh
    intro j hj1 hj2
    exact hall j hj1 hj2
  have hres : on_duplicate s orig = s ++ [(dupCandidate orig i, e)] := by
    rw [on_duplicate, hlook, hname]
  refine ⟨hres, ?_, ?_⟩
  · intro k hk
    rw [hres]
    exact srcLookup_append_left s [(dupCandidate orig i, e)] k hk
  · rw [hres]
    simp [srcKeys]

/-- Witness for C10: in a registry already holding the keys k and
k underscore copy underscore 1, duplicating k inserts the copy under the
candidate with index two, the least fresh one. -/
theorem c10_witness :
    on_duplicate [("k", { markdown_name := some "one" }), ("k_copy_1", {})] "k"
      = [("k", { markdown_name := some "one" }), ("k_copy_1", {}),
         ("k_copy_2", { markdown_name := some "one" })]
    ∧ (∀ key, key ∈ srcKeys [("k", { markdown_name := some "one" }), ("k_copy_1", {})] →
        srcLookup (on_duplicate [("k", { markdown_name := some "one" }), ("k_copy_1", {})] "k") key
          = srcLookup [("k", { markdown_name := some "one" }), ("k_copy_1", {})] key)
    ∧ srcKeys (on_duplicate [("k", { markdown_name := some "one" }), ("k_copy_1", {})] "k")
      = srcKeys [("k", { markdown_name := some "one" }), ("k_copy_1", {})] ++ ["k_copy_2"] := by
  have h := c10_duplicate_fresh_copy
    [("k", { markdown_name := some "one" }), ("k_copy_1", {})] "k"
    { markdown_name := some "one" } 2
    (by decide) (by decide) (by decide)
    (by intro j hj1 hj2; interval_cases j; decide) (by decide)
  exact ⟨by rw [h.1]; rfl, h.2.1, by rw [h.2.2]; rfl⟩

end DerivaWorkbench
